import Mathlib

/-!
Shallow embedding of `backend/server.py` (CipherShare secret-sharing service).

The server keeps a MongoDB collection `db.secrets` of secret documents and
exposes Create / Inspect (`get_secret_info`) / View (`view_secret`) / Delete /
Cleanup endpoints.  We model:

* the collection as a `List SecretDoc` in insertion (natural) order;
* `insert_one` as unconditional append — the code creates no unique index on
  the `"id"` field, and Motor's `insert_one` assigns a fresh `_id`, so an
  insert with a duplicate `"id"` succeeds silently;
* `find_one {"id": i}` as first match, `delete_one` / `update_one` as acting
  on the first match, following MongoDB's semantics on a natural-order scan;
* timestamps as integers (one unit = one minute, matching
  `timedelta(minutes=expiry_minutes)`); `datetime.now(timezone.utc)` values
  become explicit `now` parameters, one per clock read in the source;
* each `await` on the collection as a separate store round trip, which is
  what makes the interleavings of two concurrent `view_secret` calls
  observable.
-/

/-- The document `create_secret` builds at `server.py` lines 87-97. -/
structure SecretDoc where
  id : String
  encrypted_data : String
  iv : String
  pin_hash : Option String
  expiry_minutes : Int
  one_time_view : Bool
  created_at : Int
  expires_at : Int
  viewed : Bool
deriving DecidableEq, Repr

/-- The MongoDB collection `db.secrets`, in insertion order. -/
abbrev Store : Type := List SecretDoc

/-- `db.secrets.find_one({"id": i})`: first document whose `id` field is `i`. -/
def find_one : Store → String → Option SecretDoc
  | [], _ => none
  | d :: ds, i => if d.id = i then some d else find_one ds i

/-- `db.secrets.insert_one(doc)`: the code never creates a unique index on
`"id"`, so the insert always succeeds and simply appends the document, even
when a document with the same `"id"` is already present. -/
def insert_one (store : Store) (doc : SecretDoc) : Store :=
  store ++ [doc]

/-- `db.secrets.delete_one({"id": i})`: removes the first matching document. -/
def delete_one : Store → String → Store
  | [], _ => []
  | d :: ds, i => if d.id = i then ds else d :: delete_one ds i

/-- `db.secrets.update_one({"id": i}, {"$set": {"viewed": True}})`:
sets `viewed` on the first matching document (`server.py` lines 161-164). -/
def update_one_viewed : Store → String → Store
  | [], _ => []
  | d :: ds, i => if d.id = i then { d with viewed := true } :: ds else d :: update_one_viewed ds i

/-- Request body of `POST /api/secrets` (`SecretCreate`, `server.py` lines 48-53).
Pydantic enforces `1 ≤ expiry_minutes ≤ 1440` before the handler runs. -/
structure SecretCreate where
  encrypted_data : String
  iv : String
  pin_hash : Option String
  expiry_minutes : Int
  one_time_view : Bool
deriving DecidableEq, Repr

/-- Response body of a successful `POST /api/secrets/{id}/view`
(`SecretFetch`, `server.py` lines 59-64). -/
structure SecretFetch where
  encrypted_data : String
  iv : String
  one_time_view : Bool
  expires_at : Int
  has_pin : Bool
deriving DecidableEq, Repr

/-- `create_secret` (`server.py` lines 81-104).  The handler reads the clock
twice: `now1` is the `datetime.now(timezone.utc)` of line 85 (used for
`expires_at`), `now2` is the separate `datetime.now(timezone.utc)` of line 94
(stored as `created_at`).  `token` stands for the value returned by
`generate_secure_token()`.  Returns the new store and the token echoed in the
response. -/
def create_secret (token : String) (now1 now2 : Int) (secret : SecretCreate)
    (store : Store) : Store × String :=
  let expires_at := now1 + secret.expiry_minutes
  let doc : SecretDoc :=
    { id := token
      encrypted_data := secret.encrypted_data
      iv := secret.iv
      pin_hash := secret.pin_hash
      expiry_minutes := secret.expiry_minutes
      one_time_view := secret.one_time_view
      created_at := now2
      expires_at := expires_at
      viewed := false }
  (insert_one store doc, token)

/-- Outcome of `GET /api/secrets/{id}` (`get_secret_info`). -/
inductive InspectResult where
  /-- 404 "Secret not found or has expired" -/
  | notFound
  /-- 410 "Secret has expired" -/
  | expired
  /-- 410 "Secret has already been viewed" -/
  | alreadyViewed
  /-- 200 with the metadata body of lines 126-130 -/
  | info (has_pin : Bool) (one_time_view : Bool) (expires_at : Int)
deriving DecidableEq, Repr

/-- `get_secret_info` (`server.py` lines 106-130), as a function of the single
clock read `now` (line 117): returns the updated store and the response. -/
def get_secret_info (now : Int) (secret_id : String) (store : Store) :
    Store × InspectResult :=
  match find_one store secret_id with
  | none => (store, .notFound)
  | some secret =>
    if secret.expires_at < now then
      (delete_one store secret_id, .expired)
    else if secret.one_time_view && secret.viewed then
      (delete_one store secret_id, .alreadyViewed)
    else
      (store, .info secret.pin_hash.isSome secret.one_time_view secret.expires_at)

/-- Outcome of `POST /api/secrets/{id}/view` (`view_secret`). -/
inductive ViewResult where
  /-- 404 "Secret not found or has expired" -/
  | notFound
  /-- 410 "Secret has expired" -/
  | expired
  /-- 410 "Secret has already been viewed" -/
  | alreadyViewed
  /-- 401 "PIN required" -/
  | pinRequired
  /-- 401 "Invalid PIN" -/
  | invalidPin
  /-- 200 with the `SecretFetch` body -/
  | ok (data : SecretFetch)
deriving DecidableEq, Repr

/-- Python truthiness of `secret.get("pin_hash")` at line 153: the PIN gate
runs iff the stored hash is a non-empty string. -/
def pinSet : Option String → Bool
  | none => false
  | some s => s ≠ ""

/-- The PIN gate of `view_secret` (`server.py` lines 152-157).  `supplied` is
`pin_data.pin_hash` when a `PinVerify` body was sent, `none` otherwise.
`not pin_data or not pin_data.pin_hash` ⇒ required; `pin_data.pin_hash !=
secret["pin_hash"]` ⇒ invalid. -/
inductive PinOutcome where
  | required
  | invalid
  | pass
deriving DecidableEq, Repr

def pinGate (stored : Option String) (supplied : Option String) : PinOutcome :=
  if pinSet stored then
    match supplied with
    | none => .required
    | some p =>
      if p = "" then .required
      else if p ≠ stored.getD "" then .invalid
      else .pass
  else .pass

/-- The `SecretFetch` response built from a fetched document
(`server.py` lines 166-172). -/
def mkFetch (secret : SecretDoc) : SecretFetch :=
  { encrypted_data := secret.encrypted_data
    iv := secret.iv
    one_time_view := secret.one_time_view
    expires_at := secret.expires_at
    has_pin := secret.pin_hash.isSome }

/-- First store round trip of `view_secret` (`server.py` lines 136-157): the
`find_one` await followed by the purely in-memory expiry / consumed / PIN
checks (a denial on the expiry or consumed path also performs its
`delete_one` await).  `Sum.inr r` means the request was decided with result
`r`; `Sum.inl secret` means every gate passed and `secret` is the fetched
document, with the marking / response step still to come. -/
def viewFetch (now : Int) (secret_id : String) (supplied : Option String)
    (store : Store) : Store × (SecretDoc ⊕ ViewResult) :=
  match find_one store secret_id with
  | none => (store, .inr .notFound)
  | some secret =>
    if secret.expires_at < now then
      (delete_one store secret_id, .inr .expired)
    else if secret.one_time_view && secret.viewed then
      (delete_one store secret_id, .inr .alreadyViewed)
    else
      match pinGate secret.pin_hash supplied with
      | .required => (store, .inr .pinRequired)
      | .invalid => (store, .inr .invalidPin)
      | .pass => (store, .inl secret)

/-- Second store round trip of `view_secret` (`server.py` lines 159-164): the
`update_one` marking `viewed` runs only for one-time secrets; a separate
await from the `find_one` of `viewFetch`. -/
def viewCommit (secret_id : String) (secret : SecretDoc) (store : Store) : Store :=
  if secret.one_time_view then update_one_viewed store secret_id else store

/-- `view_secret` (`server.py` lines 132-172) as executed by a single request
with no interleaving: the fetch round trip followed, on success, by the
commit round trip and the `SecretFetch` response. -/
def view_secret (now : Int) (secret_id : String) (supplied : Option String)
    (store : Store) : Store × ViewResult :=
  match viewFetch now secret_id supplied store with
  | (st, .inr r) => (st, r)
  | (st, .inl secret) => (viewCommit secret_id secret st, .ok (mkFetch secret))

/-- Two concurrent `view_secret` calls against the same token, interleaved at
the `await` boundaries the code exposes: caller A's `find_one` round trip,
then caller B's `find_one` round trip, then caller A's `update_one` (when it
reached it), then caller B's `update_one`.  Returns the two responses. -/
def twoConcurrentViews (now : Int) (secret_id : String) (supplied : Option String)
    (store : Store) : ViewResult × ViewResult :=
  let fa := viewFetch now secret_id supplied store
  let fb := viewFetch now secret_id supplied fa.1
  match fa.2, fb.2 with
  | .inl sa, .inl sb =>
    let st3 := viewCommit secret_id sa fb.1
    let _ := viewCommit secret_id sb st3
    (.ok (mkFetch sa), .ok (mkFetch sb))
  | .inl sa, .inr rb =>
    let _ := viewCommit secret_id sa fb.1
    (.ok (mkFetch sa), rb)
  | .inr ra, .inl sb =>
    let _ := viewCommit secret_id sb fb.1
    (ra, .ok (mkFetch sb))
  | .inr ra, .inr rb => (ra, rb)

/-- The character scan behind the `pin_data.pin_hash != secret["pin_hash"]`
comparison at `server.py` line 156: CPython string equality compares
character by character and stops at the first mismatch.  Returns the verdict
together with the number of character comparisons performed. -/
def eqScan : List Char → List Char → Bool × Nat
  | [], [] => (true, 0)
  | [], _ :: _ => (false, 0)
  | _ :: _, [] => (false, 0)
  | a :: as, b :: bs =>
    if a = b then
      let r := eqScan as bs
      (r.1, r.2 + 1)
    else (false, 1)

/-- Every document stored under token `t` is a spent one-time secret.  The
spec (§3) calls such a record "logically nonexistent". -/
def consumed (t : String) (store : Store) : Prop :=
  ∀ d ∈ store, d.id = t → d.one_time_view = true ∧ d.viewed = true

instance (t : String) (store : Store) : Decidable (consumed t store) :=
  inferInstanceAs (Decidable (∀ d ∈ store, _ → _))

/-- A read operation against a fixed token: `POST .../view` with an optional
PIN digest, or `GET /api/secrets/{id}`. -/
inductive ROp where
  | view (now : Int) (supplied : Option String)
  | inspect (now : Int)
deriving DecidableEq, Repr

/-- Run one read operation against token `t`. -/
def runROp (t : String) (store : Store) : ROp → Store × (ViewResult ⊕ InspectResult)
  | .view now supplied =>
    let r := view_secret now t supplied store
    (r.1, .inl r.2)
  | .inspect now =>
    let r := get_secret_info now t store
    (r.1, .inr r.2)

/-- Run a sequential history of reads against token `t`, collecting the
responses. -/
def runTrace (t : String) (store : Store) : List ROp → List (ViewResult ⊕ InspectResult)
  | [] => []
  | op :: ops =>
    let r := runROp t store op
    r.2 :: runTrace t r.1 ops

/-- The response treats the secret as gone: 404 not-found or one of the two
410 answers.  In particular it carries no ciphertext and no metadata. -/
def isGone : ViewResult ⊕ InspectResult → Bool
  | .inl .notFound => true
  | .inl .expired => true
  | .inl .alreadyViewed => true
  | .inr .notFound => true
  | .inr .expired => true
  | .inr .alreadyViewed => true
  | _ => false

/-- Repeated `GET /api/secrets/{id}` calls: fold the store through
`get_secret_info` at the given sequence of clock readings. -/
def inspectIter (t : String) (nows : List Int) (store : Store) : Store :=
  nows.foldl (fun st n => (get_secret_info n t st).1) store

/-- A concrete one-time-view document with no PIN, as stored by
`create_secret` for the request
`{encrypted_data: "AB==", iv: "12", pin_hash: null, expiry_minutes: 60,
one_time_view: true}` issued at time 0. -/
def demoDoc : SecretDoc :=
  { id := "t"
    encrypted_data := "AB=="
    iv := "12"
    pin_hash := none
    expiry_minutes := 60
    one_time_view := true
    created_at := 0
    expires_at := 60
    viewed := false }

/-- `demoDoc` protected by the stored PIN digest `"good"`. -/
def pinDemoDoc : SecretDoc :=
  { demoDoc with pin_hash := some "good" }

/-! ### Helper lemmas about the store operations -/

theorem find_one_mem {store : Store} {t : String} {d : SecretDoc}
    (h : find_one store t = some d) : d ∈ store ∧ d.id = t := by
  induction store with
  | nil => simp [find_one] at h
  | cons e es ih =>
    by_cases he : e.id = t
    · simp [find_one, he] at h
      exact ⟨by simp [← h], by rw [← h]; exact he⟩
    · simp [find_one, he] at h
      rcases ih h with ⟨h1, h2⟩
      exact ⟨List.mem_cons_of_mem _ h1, h2⟩

theorem mem_delete_one {store : Store} {t : String} {d : SecretDoc}
    (h : d ∈ delete_one store t) : d ∈ store := by
  induction store with
  | nil => simp [delete_one] at h
  | cons e es ih =>
    by_cases he : e.id = t
    · simp [delete_one, he] at h
      exact List.mem_cons_of_mem _ h
    · simp [delete_one, he] at h
      rcases h with h | h
      · simp [h]
      · exact List.mem_cons_of_mem _ (ih h)

theorem find_one_append_none {store : Store} {t : String} (d : SecretDoc)
    (h : find_one store t = none) :
    find_one (store ++ [d]) t = if d.id = t then some d else none := by
  induction store with
  | nil => simp [find_one]
  | cons e es ih =>
    by_cases he : e.id = t
    · simp [find_one, he] at h
    · simp [find_one, he] at h ⊢
      exact ih h

/-! ### Unfolding lemmas for the live paths -/

theorem get_secret_info_live {store : Store} {t : String} {d : SecretDoc} {now : Int}
    (hfind : find_one store t = some d)
    (hexp : ¬ d.expires_at < now)
    (hcons : (d.one_time_view && d.viewed) = false) :
    get_secret_info now t store = (store, .info d.pin_hash.isSome d.one_time_view d.expires_at) := by
  unfold get_secret_info
  rw [hfind]
  simp [hexp, hcons]

theorem view_secret_live {store : Store} {t : String} {d : SecretDoc} {now : Int}
    {p : Option String}
    (hfind : find_one store t = some d)
    (hexp : ¬ d.expires_at < now)
    (hcons : (d.one_time_view && d.viewed) = false)
    (hpin : pinGate d.pin_hash p = .pass) :
    view_secret now t p store = (viewCommit t d store, .ok (mkFetch d)) := by
  unfold view_secret viewFetch
  rw [hfind]
  simp [hexp, hcons, hpin]

/-! ### One-time consumption: sequential histories -/

theorem consumed_delete_one {t u : String} {store : Store}
    (h : consumed t store) : consumed t (delete_one store u) :=
  fun d hd => h d (mem_delete_one hd)

theorem view_secret_consumed {t : String} {store : Store} {now : Int}
    {p : Option String} (h : consumed t store) :
    isGone (.inl (view_secret now t p store).2) = true ∧
    consumed t (view_secret now t p store).1 := by
  unfold view_secret viewFetch
  cases hfind : find_one store t with
  | none => exact ⟨rfl, h⟩
  | some d =>
    rcases find_one_mem hfind with ⟨hmem, hid⟩
    rcases h d hmem hid with ⟨h1, h2⟩
    by_cases hexp : d.expires_at < now
    · simp [hexp, isGone, consumed_delete_one h]
    · simp [hexp, h1, h2, isGone, consumed_delete_one h]

theorem get_secret_info_consumed {t : String} {store : Store} {now : Int}
    (h : consumed t store) :
    isGone (.inr (get_secret_info now t store).2) = true ∧
    consumed t (get_secret_info now t store).1 := by
  unfold get_secret_info
  cases hfind : find_one store t with
  | none => exact ⟨rfl, h⟩
  | some d =>
    rcases find_one_mem hfind with ⟨hmem, hid⟩
    rcases h d hmem hid with ⟨h1, h2⟩
    by_cases hexp : d.expires_at < now
    · simp [hexp, isGone, consumed_delete_one h]
    · simp [hexp, h1, h2, isGone, consumed_delete_one h]

theorem runTrace_consumed {t : String} {store : Store} (h : consumed t store) :
    ∀ ops : List ROp, ∀ r ∈ runTrace t store ops, isGone r = true := by
  intro ops
  induction ops generalizing store with
  | nil => intro r hr; simp [runTrace] at hr
  | cons op rest ih =>
    intro r hr
    simp only [runTrace, List.mem_cons] at hr
    rcases hr with hr | hr
    · subst hr
      cases op with
      | view now p => exact (view_secret_consumed h).1
      | inspect now => exact (get_secret_info_consumed h).1
    · cases op with
      | view now p => exact ih (view_secret_consumed h).2 r hr
      | inspect now => exact ih (get_secret_info_consumed h).2 r hr

theorem update_one_viewed_consumed {t : String} :
    ∀ store : Store,
      (∀ d ∈ store, d.id = t → d.one_time_view = true) →
      store.countP (fun d => d.id == t) ≤ 1 →
      consumed t (update_one_viewed store t)
  | [], _, _ => by intro d hd; simp [update_one_viewed] at hd
  | e :: es, hOT, hU => by
    intro d hd hid
    by_cases he : e.id = t
    · simp only [update_one_viewed, if_pos he, List.mem_cons] at hd
      rcases hd with hd | hd
      · subst hd
        exact ⟨hOT e (by simp) he, rfl⟩
      · exfalso
        have hcount : es.countP (fun d => d.id == t) = 0 := by
          have : (e :: es).countP (fun d => d.id == t) =
              es.countP (fun d => d.id == t) + 1 := by
            simp [List.countP_cons, he]
          omega
        have := List.countP_eq_zero.mp hcount d hd
        simp [hid] at this
    · simp only [update_one_viewed, if_neg he, List.mem_cons] at hd
      rcases hd with hd | hd
      · exact absurd (hd ▸ hid) he
      · have hU' : es.countP (fun d => d.id == t) ≤ 1 := by
          have : (e :: es).countP (fun d => d.id == t) =
              es.countP (fun d => d.id == t) := by
            simp [List.countP_cons, he]
          omega
        exact update_one_viewed_consumed es
          (fun d hd hid => hOT d (List.mem_cons_of_mem _ hd) hid) hU' d hd hid

theorem consumed_after_ok_view {store : Store} {t : String} {now : Int}
    {p : Option String} {f : SecretFetch}
    (hOT : ∀ d ∈ store, d.id = t → d.one_time_view = true)
    (hU : store.countP (fun d => d.id == t) ≤ 1)
    (hok : (view_secret now t p store).2 = .ok f) :
    consumed t (view_secret now t p store).1 := by
  unfold view_secret viewFetch at hok ⊢
  cases hfind : find_one store t with
  | none => rw [hfind] at hok; simp at hok
  | some d =>
    rcases find_one_mem hfind with ⟨hmem, hid⟩
    by_cases hexp : d.expires_at < now
    · simp [hfind, hexp] at hok
    · by_cases hcons : (d.one_time_view && d.viewed) = true
      · simp [hfind, hexp, hcons] at hok
      · cases hpin : pinGate d.pin_hash p with
        | required => simp [hfind, hexp, hcons, hpin] at hok
        | invalid => simp [hfind, hexp, hcons, hpin] at hok
        | pass =>
          have hbc : (d.one_time_view && d.viewed) = false := by
            simpa using hcons
          simp only [hfind, hexp, if_neg, hbc, hpin, Bool.false_eq_true, if_false]
          simp [viewCommit, hOT d hmem hid]
          exact update_one_viewed_consumed store hOT hU

/-! ### The character-scan cost of the PIN comparison -/

theorem eqScan_fst_iff : ∀ a b : List Char, (eqScan a b).1 = true ↔ a = b
  | [], [] => by simp [eqScan]
  | [], _ :: _ => by simp [eqScan]
  | _ :: _, [] => by simp [eqScan]
  | a :: as, b :: bs => by
    by_cases hab : a = b
    · simp [eqScan, hab, eqScan_fst_iff as bs]
    · simp [eqScan, hab]

/-- The scan's cost grows with the length of the agreeing prefix: two
same-length candidates that differ from the stored digest at different
positions take different numbers of character comparisons. -/
theorem eqScan_cost_common_prefix (a b : Char) (hab : a ≠ b) :
    ∀ (p as bs : List Char),
      (eqScan (p ++ a :: as) (p ++ b :: bs)).2 = p.length + 1 := by
  intro p
  induction p with
  | nil => intro as bs; simp [eqScan, hab]
  | cons c cs ih => intro as bs; simp [eqScan, ih as bs]

/-! ### Claim theorems -/

/-- Claim C1: "when N concurrent View calls race against the same one-time
token, consumption is a single atomic check-and-delete step, so exactly one
caller receives the ciphertext."  REFUTED on the code: `view_secret` performs
`find_one` and `update_one` as two separate awaited store operations with
only pure checks in between, so in the interleaving where both callers'
`find_one` round trips complete before either `update_one`, BOTH callers
receive the ciphertext of the one-time secret. -/
theorem view_secret_race_two_winners :
    twoConcurrentViews 5 "t" none [demoDoc] =
      (.ok (mkFetch demoDoc), .ok (mkFetch demoDoc)) ∧
    mkFetch demoDoc =
      { encrypted_data := "AB==", iv := "12", one_time_view := true,
        expires_at := 60, has_pin := false } := by
  exact ⟨rfl, rfl⟩

/-- Claim C3: "View compares the supplied digest to the stored digest with a
comparison whose timing does not depend on the length of the matching
prefix."  REFUTED on the code: line 156 uses the interpreter's plain string
inequality, whose character scan (`eqScan`) stops at the first mismatch.
Against the stored digest "abcd", the equal-length wrong digests "bbcd"
(mismatch at position 0) and "abcz" (mismatch at position 3) cost 1 and 4
character comparisons respectively. -/
theorem pin_comparison_cost_depends_on_matching_prefix :
    (eqScan "abcd".data "bbcd".data).1 = false ∧
    (eqScan "abcd".data "abcz".data).1 = false ∧
    "bbcd".data.length = "abcz".data.length ∧
    (eqScan "abcd".data "bbcd".data).2 = 1 ∧
    (eqScan "abcd".data "abcz".data).2 = 4 := by
  decide

/-- Claim C4: "the stored record satisfies expires_at = created_at +
requested_ttl exactly, where created_at is the single creation timestamp."
REFUTED on the code: `create_secret` reads the clock twice
(`datetime.now(timezone.utc)` at line 85 for `expires_at` and again at line
94 for `created_at`), so whenever the clock advances between the two reads —
here from 0 to 1 — the stored record has
`expires_at = 60 ≠ 61 = created_at + expiry_minutes`. -/
theorem create_secret_two_clock_reads :
    (create_secret "tok" 0 1
        { encrypted_data := "CT", iv := "IV", pin_hash := none,
          expiry_minutes := 60, one_time_view := false } []).1 =
      [{ id := "tok", encrypted_data := "CT", iv := "IV", pin_hash := none,
         expiry_minutes := 60, one_time_view := false, created_at := 1,
         expires_at := 60, viewed := false }] ∧
    ∀ d ∈ (create_secret "tok" 0 1
        { encrypted_data := "CT", iv := "IV", pin_hash := none,
          expiry_minutes := 60, one_time_view := false } []).1,
      d.expires_at ≠ d.created_at + d.expiry_minutes := by
  decide

/-- Claim C8: "the insert of the freshly generated token is a create-if-absent
operation: if the token already exists, the insert fails loudly and Create
retries with a newly generated token."  REFUTED on the code: the handler
declares no unique index on `"id"` and has no retry logic, so a second
`create_secret` that draws an already-used token silently stores a second
document under the same id — the store then holds two documents with
`id = "tok"`, and `find_one` serves the older one. -/
theorem create_secret_collision_silently_duplicates :
    ((create_secret "tok" 5 5
        { encrypted_data := "B", iv := "J", pin_hash := none,
          expiry_minutes := 30, one_time_view := false }
        (create_secret "tok" 0 0
          { encrypted_data := "A", iv := "I", pin_hash := none,
            expiry_minutes := 60, one_time_view := false } []).1).1.countP
      (fun d => d.id == "tok")) = 2 ∧
    find_one ((create_secret "tok" 5 5
        { encrypted_data := "B", iv := "J", pin_hash := none,
          expiry_minutes := 30, one_time_view := false }
        (create_secret "tok" 0 0
          { encrypted_data := "A", iv := "I", pin_hash := none,
            expiry_minutes := 60, one_time_view := false } []).1).1) "tok" =
      some { id := "tok", encrypted_data := "A", iv := "I", pin_hash := none,
             expiry_minutes := 60, one_time_view := false, created_at := 0,
             expires_at := 60, viewed := false } := by
  decide

/-- Claim C2: in every sequential history, once a View of a one-time token
has returned the ciphertext, every later View or Inspect of that token
answers with a not-found / gone denial (404 or 410) and never returns the
ciphertext or the metadata again.  Hypotheses: every document stored under
the token is one-time (in a history that created the token once with
`one_time_view = true` there is exactly one), at most one such document
exists, and the View at hand succeeded. -/
theorem one_time_view_never_returns_again (store : Store) (t : String)
    (now : Int) (p : Option String) (f : SecretFetch)
    (hOT : ∀ d ∈ store, d.id = t → d.one_time_view = true)
    (hU : store.countP (fun d => d.id == t) ≤ 1)
    (hok : (view_secret now t p store).2 = .ok f)
    (ops : List ROp) :
    (runTrace t (view_secret now t p store).1 ops).all isGone = true :=
  List.all_eq_true.mpr
    (runTrace_consumed (consumed_after_ok_view hOT hU hok) ops)

/-- Witness for C2 at a concrete history: the one-time secret `demoDoc` is
viewed successfully at time 5; the follow-up View / Inspect / View / Inspect
calls all answer with gone-denials. -/
theorem one_time_view_never_returns_again_witness :
    ((view_secret 5 "t" none [demoDoc]).2 = .ok (mkFetch demoDoc)) ∧
    (runTrace "t" (view_secret 5 "t" none [demoDoc]).1
        [ROp.view 6 none, ROp.inspect 7, ROp.view 8 none,
         ROp.inspect 9]).all isGone = true :=
  ⟨by decide,
   one_time_view_never_returns_again [demoDoc] "t" 5 none (mkFetch demoDoc)
     (by decide) (by decide) (by decide)
     [ROp.view 6 none, ROp.inspect 7, ROp.view 8 none, ROp.inspect 9]⟩

/-- Claim C5: expiry is decided by the strict comparison `now > expires_at`
against the record's stored deadline, in both `get_secret_info` (line 117)
and `view_secret` (line 143); in particular at `now = expires_at` the record
is not expired and the read still succeeds. -/
theorem expiry_is_strict_comparison (store : Store) (t : String)
    (d : SecretDoc) (now : Int) (p : Option String)
    (hfind : find_one store t = some d)
    (hcons : (d.one_time_view && d.viewed) = false)
    (hpin : pinGate d.pin_hash p = .pass) :
    ((get_secret_info now t store).2 = .expired ↔ d.expires_at < now) ∧
    ((view_secret now t p store).2 = .expired ↔ d.expires_at < now) ∧
    (now = d.expires_at →
      (get_secret_info now t store).2 =
        .info d.pin_hash.isSome d.one_time_view d.expires_at ∧
      (view_secret now t p store).2 = .ok (mkFetch d)) := by
  refine ⟨?_, ?_, ?_⟩
  · by_cases hexp : d.expires_at < now
    · unfold get_secret_info
      rw [hfind]
      simp [hexp]
    · rw [get_secret_info_live hfind hexp hcons]
      simp [hexp]
  · by_cases hexp : d.expires_at < now
    · unfold view_secret viewFetch
      rw [hfind]
      simp [hexp]
    · rw [view_secret_live hfind hexp hcons hpin]
      simp [hexp]
  · intro hnow
    have hexp : ¬ d.expires_at < now := by
      rw [hnow]
      exact lt_irrefl _
    exact ⟨by rw [get_secret_info_live hfind hexp hcons],
           by rw [view_secret_live hfind hexp hcons hpin]⟩

/-- Witness for C5: the secret `demoDoc` with `expires_at = 60`, read exactly
at time 60 — not expired, Inspect reports the metadata and View returns the
ciphertext. -/
theorem expiry_is_strict_comparison_witness :
    ((get_secret_info 60 "t" [demoDoc]).2 = .expired ↔ demoDoc.expires_at < 60) ∧
    ((view_secret 60 "t" none [demoDoc]).2 = .expired ↔ demoDoc.expires_at < 60) ∧
    ((60 : Int) = demoDoc.expires_at →
      (get_secret_info 60 "t" [demoDoc]).2 =
        .info demoDoc.pin_hash.isSome demoDoc.one_time_view demoDoc.expires_at ∧
      (view_secret 60 "t" none [demoDoc]).2 = .ok (mkFetch demoDoc)) :=
  expiry_is_strict_comparison [demoDoc] "t" demoDoc 60 none
    (by decide) (by decide) (by decide)

/-- Claim C6: on a live PIN-protected record, a View denied for a missing
digest ("PIN required") or a wrong digest ("Invalid PIN") mutates nothing —
the store is returned unchanged, so the record stays live, unviewed and
undeleted — and the denial carries no ciphertext. -/
theorem pin_denial_mutates_nothing (store : Store) (t : String)
    (d : SecretDoc) (now : Int) (p : Option String)
    (hfind : find_one store t = some d)
    (hexp : ¬ d.expires_at < now)
    (hcons : (d.one_time_view && d.viewed) = false)
    (hgate : pinGate d.pin_hash p = .required ∨ pinGate d.pin_hash p = .invalid) :
    (view_secret now t p store).1 = store ∧
    ((view_secret now t p store).2 = .pinRequired ∨
      (view_secret now t p store).2 = .invalidPin) ∧
    (∀ f : SecretFetch, (view_secret now t p store).2 ≠ .ok f) := by
  unfold view_secret viewFetch
  rw [hfind]
  rcases hgate with hg | hg
  · simp [hexp, hcons, hg]
  · simp [hexp, hcons, hg]

/-- Witness for C6: `pinDemoDoc` (stored digest "good"), denied once for a
missing digest and once for the wrong digest "bad"; the store is unchanged
both times. -/
theorem pin_denial_mutates_nothing_witness :
    ((view_secret 5 "t" none [pinDemoDoc]).1 = [pinDemoDoc] ∧
      ((view_secret 5 "t" none [pinDemoDoc]).2 = .pinRequired ∨
        (view_secret 5 "t" none [pinDemoDoc]).2 = .invalidPin) ∧
      (∀ f : SecretFetch, (view_secret 5 "t" none [pinDemoDoc]).2 ≠ .ok f)) ∧
    ((view_secret 5 "t" (some "bad") [pinDemoDoc]).1 = [pinDemoDoc] ∧
      ((view_secret 5 "t" (some "bad") [pinDemoDoc]).2 = .pinRequired ∨
        (view_secret 5 "t" (some "bad") [pinDemoDoc]).2 = .invalidPin) ∧
      (∀ f : SecretFetch, (view_secret 5 "t" (some "bad") [pinDemoDoc]).2 ≠ .ok f)) :=
  ⟨pin_denial_mutates_nothing [pinDemoDoc] "t" pinDemoDoc 5 none
     (by decide) (by decide) (by decide) (by decide),
   pin_denial_mutates_nothing [pinDemoDoc] "t" pinDemoDoc 5 (some "bad")
     (by decide) (by decide) (by decide) (by decide)⟩

/-- Claim C7: `get_secret_info` never marks a record viewed and never
consumes a one-time secret — its only possible mutation is the opportunistic
purge `delete_one`; iterating it any number of times on a live record leaves
the store unchanged, after which View still returns the ciphertext. -/
theorem inspect_never_consumes (store : Store) (t : String) (d : SecretDoc)
    (nows : List Int) (now : Int) (p : Option String)
    (hfind : find_one store t = some d)
    (hcons : (d.one_time_view && d.viewed) = false)
    (hnows : ∀ x ∈ nows, ¬ d.expires_at < x)
    (hexp : ¬ d.expires_at < now)
    (hpin : pinGate d.pin_hash p = .pass) :
    (∀ (m : Int) (u : String) (st : Store),
      (get_secret_info m u st).1 = st ∨
      (get_secret_info m u st).1 = delete_one st u) ∧
    inspectIter t nows store = store ∧
    (view_secret now t p (inspectIter t nows store)).2 = .ok (mkFetch d) := by
  have hframe : ∀ (m : Int) (u : String) (st : Store),
      (get_secret_info m u st).1 = st ∨
      (get_secret_info m u st).1 = delete_one st u := by
    intro m u st
    unfold get_secret_info
    cases find_one st u with
    | none => exact Or.inl rfl
    | some s =>
      by_cases he : s.expires_at < m
      · simp [he]
      · by_cases hc : (s.one_time_view && s.viewed) = true
        · simp [he, hc]
        · simp [he, hc]
  have hiter : inspectIter t nows store = store := by
    induction nows with
    | nil => rfl
    | cons n ns ih =>
      have hn : ¬ d.expires_at < n := hnows n (by simp)
      have hstep : (get_secret_info n t store).1 = store := by
        rw [get_secret_info_live hfind hn hcons]
      calc inspectIter t (n :: ns) store
          = inspectIter t ns (get_secret_info n t store).1 := rfl
        _ = inspectIter t ns store := by rw [hstep]
        _ = store := ih (fun x hx => hnows x (by simp [hx]))
  refine ⟨hframe, hiter, ?_⟩
  rw [hiter, view_secret_live hfind hexp hcons hpin]

/-- Witness for C7: three Inspects of `demoDoc` at times 1, 2, 3 leave the
store unchanged and the View at time 4 still returns the ciphertext. -/
theorem inspect_never_consumes_witness :
    (∀ (m : Int) (u : String) (st : Store),
      (get_secret_info m u st).1 = st ∨
      (get_secret_info m u st).1 = delete_one st u) ∧
    inspectIter "t" [1, 2, 3] [demoDoc] = [demoDoc] ∧
    (view_secret 4 "t" none (inspectIter "t" [1, 2, 3] [demoDoc])).2 =
      .ok (mkFetch demoDoc) :=
  inspect_never_consumes [demoDoc] "t" demoDoc [1, 2, 3] 4 none
    (by decide) (by decide) (by decide) (by decide) (by decide)

/-- Claim C9: the ciphertext and iv that a successful View returns are
exactly the ones supplied at Create — `create_secret` stores
`encrypted_data` and `iv` untransformed and `view_secret` forwards the
stored fields untransformed. -/
theorem view_returns_created_bytes (store : Store) (tok : String)
    (sc : SecretCreate) (t1 t2 now : Int) (p : Option String)
    (hfresh : find_one store tok = none)
    (hexp : ¬ t1 + sc.expiry_minutes < now)
    (hpin : pinGate sc.pin_hash p = .pass) :
    (view_secret now tok p (create_secret tok t1 t2 sc store).1).2 =
      .ok { encrypted_data := sc.encrypted_data, iv := sc.iv,
            one_time_view := sc.one_time_view,
            expires_at := t1 + sc.expiry_minutes,
            has_pin := sc.pin_hash.isSome } := by
  have hfind : find_one (create_secret tok t1 t2 sc store).1 tok =
      some { id := tok, encrypted_data := sc.encrypted_data, iv := sc.iv,
             pin_hash := sc.pin_hash, expiry_minutes := sc.expiry_minutes,
             one_time_view := sc.one_time_view, created_at := t2,
             expires_at := t1 + sc.expiry_minutes, viewed := false } := by
    show find_one (store ++ [_]) tok = _
    rw [find_one_append_none _ hfresh]
    simp
  rw [view_secret_live hfind (by simpa using hexp) (by simp) (by simpa using hpin)]
  rfl

/-- Witness for C9: Create with ciphertext "CT==" and iv "IVIV" at time 0,
View at the expiry boundary 60 — the response carries back exactly "CT=="
and "IVIV". -/
theorem view_returns_created_bytes_witness :
    (view_secret 60 "tok" none
      (create_secret "tok" 0 0
        { encrypted_data := "CT==", iv := "IVIV", pin_hash := none,
          expiry_minutes := 60, one_time_view := true } []).1).2 =
      .ok { encrypted_data := "CT==", iv := "IVIV", one_time_view := true,
            expires_at := 0 + 60, has_pin := false } :=
  view_returns_created_bytes [] "tok"
    { encrypted_data := "CT==", iv := "IVIV", pin_hash := none,
      expiry_minutes := 60, one_time_view := true } 0 0 60 none
    (by decide) (by decide) (by decide)

/-- Claim C10: for a record stored without a PIN (`pin_hash = null`), the
PIN block of `view_secret` is skipped entirely, so a View that supplies any
digest behaves exactly like a View that supplies none, and on a live record
it returns the ciphertext. -/
theorem no_pin_supplied_digest_ignored (store : Store) (t : String)
    (d : SecretDoc) (now : Int) (digest : String)
    (hfind : find_one store t = some d)
    (hnopin : d.pin_hash = none) :
    view_secret now t (some digest) store = view_secret now t none store ∧
    (¬ d.expires_at < now → (d.one_time_view && d.viewed) = false →
      (view_secret now t (some digest) store).2 = .ok (mkFetch d)) := by
  have hg1 : pinGate d.pin_hash (some digest) = .pass := by
    simp [pinGate, pinSet, hnopin]
  have hg2 : pinGate d.pin_hash none = .pass := by
    simp [pinGate, pinSet, hnopin]
  constructor
  · unfold view_secret viewFetch
    rw [hfind]
    by_cases hexp : d.expires_at < now
    · simp [hexp]
    · by_cases hcons : (d.one_time_view && d.viewed) = true
      · simp [hexp, hcons]
      · simp [hexp, hcons, hg1, hg2]
  · intro hexp hcons
    rw [view_secret_live hfind hexp hcons hg1]

/-- Witness for C10: `demoDoc` has no PIN; viewing with the gratuitous
digest "zz" equals viewing with no digest, and returns the ciphertext. -/
theorem no_pin_supplied_digest_ignored_witness :
    view_secret 5 "t" (some "zz") [demoDoc] = view_secret 5 "t" none [demoDoc] ∧
    (¬ demoDoc.expires_at < 5 → (demoDoc.one_time_view && demoDoc.viewed) = false →
      (view_secret 5 "t" (some "zz") [demoDoc]).2 = .ok (mkFetch demoDoc)) :=
  no_pin_supplied_digest_ignored [demoDoc] "t" demoDoc 5 "zz"
    (by decide) (by decide)
